import Mathlib

/-!
Verification of the `trunk` parser (`trunk_parser` crate).

Shallow embedding of the statement/expression/parameter parsers of the
`trunk_parser` crate (`src/parser.rs`, `src/parser/params.rs`, `src/ast.rs`)
and proofs about them.

Modelling conventions:
* A token is modelled by its kind only: the source (`parser.rs`) matches
  exclusively on `token.kind`; span metadata is opaque passthrough.
* The Rust `Peekable<IntoIter<Token>>` cursor is modelled by explicit
  state passing of a `List Token`; `peek` is `head?`, `next` is
  head-consumption.  Because the Rust iterator is mutated in place, an
  error outcome also carries the iterator state at the moment of failure
  (`Statement::Return` keeps using the iterator after a failed
  expression parse, so this state is observable).
* Rust `todo!()` / `unreachable!()` / `Option::unwrap` panics are a
  distinct outcome (`POutcome.panicked`): they are crashes, not values of
  the `Result` type the parser returns.
* The recursion of the mutually recursive parse functions and their
  `while` loops is bounded by an explicit fuel parameter; exhausted fuel
  is its own outcome, distinct from every outcome the Rust code can
  produce.  Every statement proved below either holds for all fuel or
  carries the fuel explicitly.
* `u8` binding powers are modelled as `Nat`: the table values are 9–19
  and the comparisons `lbp < bp` can never overflow.
-/

/-- Token kinds used by the parser, from `trunk_lexer::TokenKind`
(external to the parser crate; the kinds and their payloads are those
enumerated in the parser's matches and spec §6). -/
inductive Token where
  | OpenTag (text : String)
  | InlineHtml (text : String)
  | If
  | Class
  | Function
  | Return
  | Echo
  | Public
  | Protected
  | Private
  | Static
  | Identifier (name : String)
  | Variable (name : String)
  | Int (value : Int)
  | Plus
  | Minus
  | LessThan
  | LeftParen
  | RightParen
  | LeftBrace
  | RightBrace
  | Comma
  | SemiColon
  | Equals
  | Ampersand
  | Ellipsis
  deriving Repr, DecidableEq

/-- From `ast.rs`: `InfixOp` — closed enum of the supported binary operators. -/
inductive InfixOp where
  | Add
  | Sub
  | LessThan
  deriving Repr, DecidableEq

/-- From `ast.rs`: `MethodFlag`. -/
inductive MethodFlag where
  | Public
  | Protected
  | Private
  | Static
  deriving Repr, DecidableEq

/-- From `ast.rs`: `Identifier` — a name wrapper. -/
structure Identifier where
  name : String
  deriving Repr, DecidableEq

/-- From `ast.rs`: `Expression` (and `ArrayItem`, inlined as a pair of its two
fields since Lean nested-inductive support is simplest that way). -/
inductive Expression where
  | Int (i : Int)
  | Variable (name : String)
  | Infix (lhs : Expression) (op : InfixOp) (rhs : Expression)
  | Call (callee : Expression) (args : List Expression)
  | Identifier (name : String)
  | Assign (target : Expression) (value : Expression)
  | Array (items : List (Option Expression × Expression))
  deriving Repr

/-- From `ast.rs`: `Param` as used by `parser.rs` (`Param { name }`; the richer
parameter shape of the `params.rs` stage is `ParamsRs.Param` below). -/
structure Param where
  name : Expression
  deriving Repr

/-- The `impl From<String> for Param` conversion in `ast.rs`. -/
def Param.fromName (name : String) : Param :=
  { name := Expression.Variable name }

/-- From `ast.rs`: `Statement`.  `Class` carries the two fields that
`parser.rs` constructs (name and body); the later-stage `ast.rs` sketch
adds `extends` / `implements` / `flag`, none of which the parser under
verification produces. -/
inductive Statement where
  | InlineHtml (text : String)
  | Var (var : String)
  | Property (var : String)
  | Function (name : Identifier) (params : List Param) (body : List Statement)
  | Class (name : Identifier) (body : List Statement)
  | Method (name : Identifier) (params : List Param) (body : List Statement)
      (flags : List MethodFlag)
  | If (condition : Expression) (then_ : List Statement)
  | Return (value : Option Expression)
  | Echo (values : List Expression)
  | Expression (expr : Expression)
  | Noop
  deriving Repr

/-- From `ast.rs`: `Block` / `Program`. -/
abbrev Block := List Statement

abbrev Program := List Statement

/-- From `parser.rs`: `ParseError` — the closed error taxonomy. -/
inductive ParseError where
  | ExpectedToken (message : String)
  | UnexpectedEndOfFile
  | InvalidClassStatement (message : String)
  deriving Repr, DecidableEq

/-- Outcome of running a parse function: a value plus the remaining
token stream, an error plus the token stream at the error point (the
Rust iterator is mutated in place and remains usable after an error), a
panic (`todo!` / `unreachable!` / `unwrap` on `None`), or fuel
exhaustion (an artifact of the embedding, distinct from every source
outcome). -/
inductive POutcome (α : Type) where
  | ok (value : α) (rest : List Token)
  | error (e : ParseError) (rest : List Token)
  | panicked
  | outOfFuel
  deriving Repr

/-- From `parser.rs`, `fn infix`: fold two operands and the operator token
into an `Expression::Infix`.  The `From<TokenKind> for InfixOp`
conversion is `unreachable!` for non-operator tokens; it is only ever
applied under the `infix_binding_power` guard, where the token is one of
`Plus`/`Minus`/`LessThan` (the arbitrary value returned for other tokens
here is never reachable from the parser). -/
def tokenToInfixOp : Token → InfixOp
  | Token.Plus => InfixOp.Add
  | Token.Minus => InfixOp.Sub
  | Token.LessThan => InfixOp.LessThan
  | _ => InfixOp.Add

/-- From `parser.rs`, `fn infix`. -/
def mkInfix (lhs : Expression) (op : Token) (rhs : Expression) : Expression :=
  Expression.Infix lhs (tokenToInfixOp op) rhs

/-- From `parser.rs`, `fn infix_binding_power`. -/
def infix_binding_power : Token → Option (Nat × Nat)
  | Token.Plus => some (11, 12)
  | Token.Minus => some (11, 12)
  | Token.LessThan => some (9, 10)
  | _ => none

/-- From `parser.rs`, `fn postfix_binding_power`. -/
def postfix_binding_power : Token → Option Nat
  | Token.LeftParen => some 19
  | _ => none

/-- From `parser.rs`, `fn is_method_visibility_modifier`. -/
def is_method_visibility_modifier : Token → Bool
  | Token.Public => true
  | Token.Protected => true
  | Token.Private => true
  | Token.Static => true
  | _ => false

/-- From `parser.rs`, `fn visibility_token_to_flag`; `unreachable!` for other
tokens — only called under the `is_method_visibility_modifier` guard, so
the value returned for other tokens is never reachable from the parser. -/
def visibility_token_to_flag : Token → MethodFlag
  | Token.Public => MethodFlag.Public
  | Token.Protected => MethodFlag.Protected
  | Token.Private => MethodFlag.Private
  | Token.Static => MethodFlag.Static
  | _ => MethodFlag.Public

mutual

/-- The method `Parser::expression` (`parser.rs` lines 172–223): fail with
`UnexpectedEndOfFile` on an empty stream, parse a primary expression
(`Variable` / `Int` / `Identifier`; any other leading token is a
`todo!` panic), then run the precedence-climbing loop. -/
def expression (fuel : Nat) (ts : List Token) (bp : Nat) : POutcome Expression :=
  match fuel with
  | 0 => POutcome.outOfFuel
  | fuel + 1 =>
    match ts with
    | [] => POutcome.error ParseError.UnexpectedEndOfFile []
    | t :: rest =>
      match t with
      | Token.Variable v => exprLoop fuel (Expression.Variable v) rest bp
      | Token.Int i => exprLoop fuel (Expression.Int i) rest bp
      | Token.Identifier i => exprLoop fuel (Expression.Identifier i) rest bp
      | _ => POutcome.panicked

/-- The `loop` inside `Parser::expression`: stop before `;` or at
end-of-input; otherwise try the postfix table, then the infix table,
honouring the minimum binding power `bp`; fold and continue. -/
def exprLoop (fuel : Nat) (lhs : Expression) (ts : List Token) (bp : Nat) :
    POutcome Expression :=
  match fuel with
  | 0 => POutcome.outOfFuel
  | fuel + 1 =>
    match ts with
    | [] => POutcome.ok lhs []
    | Token.SemiColon :: _ => POutcome.ok lhs ts
    | t :: rest =>
      match postfix_binding_power t with
      | some lbp =>
        if lbp < bp then POutcome.ok lhs ts
        else
          match postfixApp fuel rest lhs t with
          | POutcome.ok lhs' rest' => exprLoop fuel lhs' rest' bp
          | e => e
      | none =>
        match infix_binding_power t with
        | some (lbp, rbp) =>
          if lbp < bp then POutcome.ok lhs ts
          else
            match expression fuel rest rbp with
            | POutcome.ok rhs rest' => exprLoop fuel (mkInfix lhs t rhs) rest' bp
            | e => e
        | none => POutcome.ok lhs ts

/-- The method `Parser::postfix` (`parser.rs` lines 225–243): only `(` is
registered; parse a comma-separated argument list up to `)` and build
`Expression::Call`; any other operator is a `todo!` panic. -/
def postfixApp (fuel : Nat) (ts : List Token) (lhs : Expression) (op : Token) :
    POutcome Expression :=
  match fuel with
  | 0 => POutcome.outOfFuel
  | fuel + 1 =>
    match op with
    | Token.LeftParen =>
      match callArgs fuel ts with
      | POutcome.ok args rest => POutcome.ok (Expression.Call lhs args) rest
      | POutcome.error e rest => POutcome.error e rest
      | POutcome.panicked => POutcome.panicked
      | POutcome.outOfFuel => POutcome.outOfFuel
    | _ => POutcome.panicked

/-- The argument-list `while` loop inside `Parser::postfix`, followed by
the `expect!` of `)`: collect expressions separated by optional commas
while the next token is not `)`; the loop only exits at `)` or
end-of-input, so the trailing `expect!` fails exactly at end-of-input. -/
def callArgs (fuel : Nat) (ts : List Token) : POutcome (List Expression) :=
  match fuel with
  | 0 => POutcome.outOfFuel
  | fuel + 1 =>
    match ts with
    | [] => POutcome.error (ParseError.ExpectedToken "expected )") []
    | Token.RightParen :: rest => POutcome.ok [] rest
    | _ =>
      match expression fuel ts 0 with
      | POutcome.ok arg rest =>
        let rest' := match rest with
          | Token.Comma :: r => r
          | _ => rest
        match callArgs fuel rest' with
        | POutcome.ok args rest'' => POutcome.ok (arg :: args) rest''
        | e => e
      | POutcome.error e rest => POutcome.error e rest
      | POutcome.panicked => POutcome.panicked
      | POutcome.outOfFuel => POutcome.outOfFuel

end

/-- Sequencing of parse steps with the `?` / `expect!` propagation of
`parser.rs`: the continuation receives the value and the cursor state;
errors, panics and fuel exhaustion propagate unchanged. -/
def POutcome.bind {α β : Type} : POutcome α → (α → List Token → POutcome β) → POutcome β
  | POutcome.ok a rest, f => f a rest
  | POutcome.error e rest, _ => POutcome.error e rest
  | POutcome.panicked, _ => POutcome.panicked
  | POutcome.outOfFuel, _ => POutcome.outOfFuel

@[simp] theorem POutcome.bind_ok {α β : Type} (a : α) (r : List Token)
    (f : α → List Token → POutcome β) : (POutcome.ok a r).bind f = f a r := rfl

@[simp] theorem POutcome.bind_error {α β : Type} (e : ParseError) (r : List Token)
    (f : α → List Token → POutcome β) :
    (POutcome.error e r).bind f = POutcome.error e r := rfl

@[simp] theorem POutcome.bind_panicked {α β : Type}
    (f : α → List Token → POutcome β) :
    (POutcome.panicked : POutcome α).bind f = POutcome.panicked := rfl

@[simp] theorem POutcome.bind_outOfFuel {α β : Type}
    (f : α → List Token → POutcome β) :
    (POutcome.outOfFuel : POutcome α).bind f = POutcome.outOfFuel := rfl

/-- The `expect!` macro of `parser.rs` for a payload-free pattern:
`tokens.next()` is consumed even on a mismatch; `None` or a mismatching
kind yields `ExpectedToken message`. -/
def expectTok (expected : Token) (message : String) (ts : List Token) : POutcome Unit :=
  match ts with
  | t :: rest =>
    if t = expected then POutcome.ok () rest
    else POutcome.error (ParseError.ExpectedToken message) rest
  | [] => POutcome.error (ParseError.ExpectedToken message) []

/-- The `expect!` macro of `parser.rs` for the `Identifier(i)` pattern,
returning the payload. -/
def expectIdentifier (message : String) (ts : List Token) : POutcome String :=
  match ts with
  | Token.Identifier i :: rest => POutcome.ok i rest
  | _ :: rest => POutcome.error (ParseError.ExpectedToken message) rest
  | [] => POutcome.error (ParseError.ExpectedToken message) []

/-- The flag-collection `while` loop of the visibility-modifier branch
of `Parser::statement` (`parser.rs` lines 155–159): while the next token
is a visibility/static modifier, consume it and append its flag. -/
def modFlags (fuel : Nat) (flags : List MethodFlag) (ts : List Token) :
    POutcome (List MethodFlag) :=
  match fuel with
  | 0 => POutcome.outOfFuel
  | fuel + 1 =>
    match ts with
    | [] => POutcome.ok flags []
    | t :: rest =>
      if is_method_visibility_modifier t then
        modFlags fuel (flags ++ [visibility_token_to_flag t]) rest
      else POutcome.ok flags ts

/-- The parameter `while` loop of the `Function` branch of
`Parser::statement` (`parser.rs` lines 127–134): while the next token is
not `)`, `expect!` a `Variable` (consumed even on mismatch) and push it
as a `Param`, consuming one optional comma.  The loop leaves the `)`
(or end-of-input) for the caller's `expect!`. -/
def fnParams (fuel : Nat) (ts : List Token) : POutcome (List Param) :=
  match fuel with
  | 0 => POutcome.outOfFuel
  | fuel + 1 =>
    match ts with
    | [] => POutcome.ok [] []
    | t :: rest =>
      if t = Token.RightParen then POutcome.ok [] ts
      else
        match t with
        | Token.Variable v =>
          let rest' := match rest with
            | Token.Comma :: r => r
            | _ => rest
          (fnParams fuel rest').bind fun ps r => POutcome.ok (Param.fromName v :: ps) r
        | _ => POutcome.error (ParseError.ExpectedToken "expected variable") rest

/-- The value `while` loop of the `Echo` branch of `Parser::statement`
(`parser.rs` lines 96–106) fused with the terminating `expect!` of `;`:
while the next token is not `;`, parse an expression and consume one
optional comma; the loop only exits at `;` (consumed, success) or at
end-of-input (the `expect!` fails). -/
def echoValues (fuel : Nat) (ts : List Token) : POutcome (List Expression) :=
  match fuel with
  | 0 => POutcome.outOfFuel
  | fuel + 1 =>
    match ts with
    | [] =>
      POutcome.error
        (ParseError.ExpectedToken "expected semi-colon at the end of an echo statement") []
    | t :: rest =>
      if t = Token.SemiColon then POutcome.ok [] rest
      else
        (expression fuel ts 0).bind fun v rest1 =>
          let rest2 := match rest1 with
            | Token.Comma :: r => r
            | _ => rest1
          (echoValues fuel rest2).bind fun vs r => POutcome.ok (v :: vs) r

mutual

/-- The method `Parser::statement` (`parser.rs` lines 51–170): dispatch on the
already-consumed token `t`, with the cursor at `ts`.  The final arm is
`todo!("unhandled token")` — a panic. -/
def statement (fuel : Nat) (t : Token) (ts : List Token) : POutcome Statement :=
  match fuel with
  | 0 => POutcome.outOfFuel
  | fuel + 1 =>
    match t with
    | Token.InlineHtml html => POutcome.ok (Statement.InlineHtml html) ts
    | Token.If =>
      (expectTok Token.LeftParen "expected (" ts).bind fun _ ts1 =>
      (expression fuel ts1 0).bind fun condition ts2 =>
      (expectTok Token.RightParen "expected )" ts2).bind fun _ ts3 =>
      (expectTok Token.LeftBrace "expected \x7b" ts3).bind fun _ ts4 =>
      (blockLoop fuel ts4).bind fun thenBlock ts5 =>
      (expectTok Token.RightBrace "expected \x7d" ts5).bind fun _ ts6 =>
      POutcome.ok (Statement.If condition thenBlock) ts6
    | Token.Class =>
      (expectIdentifier "expected class name" ts).bind fun name ts1 =>
      (expectTok Token.LeftBrace "expected left-brace" ts1).bind fun _ ts2 =>
      (classBody fuel ts2).bind fun body ts3 =>
      (expectTok Token.RightBrace "expected right-brace" ts3).bind fun _ ts4 =>
      POutcome.ok (Statement.Class ⟨name⟩ body) ts4
    | Token.Echo =>
      (echoValues fuel ts).bind fun values rest =>
      POutcome.ok (Statement.Echo values) rest
    | Token.Return =>
      match ts with
      | Token.SemiColon :: rest => POutcome.ok (Statement.Return none) rest
      | _ =>
        match expression fuel ts 0 with
        | POutcome.ok v rest =>
          (expectTok Token.SemiColon
              "expected semi-colon at the end of return statement." rest).bind fun _ r =>
            POutcome.ok (Statement.Return (some v)) r
        | POutcome.error _ rest =>
          (expectTok Token.SemiColon
              "expected semi-colon at the end of return statement." rest).bind fun _ r =>
            POutcome.ok (Statement.Return none) r
        | POutcome.panicked => POutcome.panicked
        | POutcome.outOfFuel => POutcome.outOfFuel
    | Token.Function =>
      (expectIdentifier "expected identifier" ts).bind fun name ts1 =>
      (expectTok Token.LeftParen "expected (" ts1).bind fun _ ts2 =>
      (fnParams fuel ts2).bind fun params ts3 =>
      (expectTok Token.RightParen "expected )" ts3).bind fun _ ts4 =>
      (expectTok Token.LeftBrace "expected \x7b" ts4).bind fun _ ts5 =>
      (blockLoop fuel ts5).bind fun body ts6 =>
      (expectTok Token.RightBrace "expected \x7d" ts6).bind fun _ ts7 =>
      POutcome.ok (Statement.Function ⟨name⟩ params body) ts7
    | _ =>
      if is_method_visibility_modifier t then
        (modFlags fuel [visibility_token_to_flag t] ts).bind fun flags ts1 =>
        match ts1 with
        | [] => POutcome.panicked
        | t' :: rest =>
          match statement fuel t' rest with
          | POutcome.ok (Statement.Function name params body) rest' =>
            POutcome.ok (Statement.Method name params body flags) rest'
          | POutcome.ok _ rest' =>
            POutcome.error
              (ParseError.InvalidClassStatement
                "Classes can only contain properties, constants and methods.") rest'
          | POutcome.error e r => POutcome.error e r
          | POutcome.panicked => POutcome.panicked
          | POutcome.outOfFuel => POutcome.outOfFuel
      else POutcome.panicked

/-- The block `while` loop shared by the `If` and `Function` branches of
`Parser::statement` (`parser.rs` lines 65–67 and 144–146): while the
next token exists and is not `}`, consume it and parse one statement.
The terminator (or end-of-input) is left for the caller's `expect!`. -/
def blockLoop (fuel : Nat) (ts : List Token) : POutcome (List Statement) :=
  match fuel with
  | 0 => POutcome.outOfFuel
  | fuel + 1 =>
    match ts with
    | [] => POutcome.ok [] []
    | t :: rest =>
      if t = Token.RightBrace then POutcome.ok [] ts
      else
        (statement fuel t rest).bind fun s rest' =>
        (blockLoop fuel rest').bind fun sts r => POutcome.ok (s :: sts) r

/-- The class-body `while` loop of the `Class` branch of
`Parser::statement` (`parser.rs` lines 78–89): while the next token
exists and is not `}`, parse one statement; a `Function` is re-tagged as
a `Method` with empty flags, a `Method` is kept, anything else is an
`InvalidClassStatement` error. -/
def classBody (fuel : Nat) (ts : List Token) : POutcome (List Statement) :=
  match fuel with
  | 0 => POutcome.outOfFuel
  | fuel + 1 =>
    match ts with
    | [] => POutcome.ok [] []
    | t :: rest =>
      if t = Token.RightBrace then POutcome.ok [] ts
      else
        (statement fuel t rest).bind fun s rest' =>
        match s with
        | Statement.Function name params body =>
          (classBody fuel rest').bind fun sts r =>
            POutcome.ok (Statement.Method name params body [] :: sts) r
        | Statement.Method name params body flags =>
          (classBody fuel rest').bind fun sts r =>
            POutcome.ok (Statement.Method name params body flags :: sts) r
        | _ =>
          POutcome.error
            (ParseError.InvalidClassStatement
              "Classes can only contain properties, constants and methods.") rest'

end

/-- The method `Parser::parse` (`parser.rs` lines 35–48): the top-level `while`
loop; `OpenTag` tokens are skipped, every other token starts a
statement. -/
def parse (fuel : Nat) (ts : List Token) : POutcome Program :=
  match fuel with
  | 0 => POutcome.outOfFuel
  | fuel + 1 =>
    match ts with
    | [] => POutcome.ok [] []
    | Token.OpenTag _ :: rest => parse fuel rest
    | t :: rest =>
      (statement fuel t rest).bind fun s r =>
      (parse fuel r).bind fun prog r' => POutcome.ok (s :: prog) r'

namespace ParamsRs

/-!
The `params.rs` file belongs to a later evolutionary stage of the
parser (spec §9): its host `Parser` struct (with `current`, `next`,
`is_eof`, `config`) and the helpers `type_string`, `optional_comma` and
the `Precedence`-based `expression` are not under `src/`.
`Parser::param_list` itself is under `src/` and is embedded here
faithfully; the cursor state `(self.current, remaining)` is modelled as
a token list whose head is `self.current` (`is_eof` = emptiness), and
the missing helpers are modelled from the spec, each marked in its doc
comment.
-/

/-- The enum `PropertyFlag` (referenced by `params.rs`; its declaration is not
under `src/`).  Modelled from the spec: §4.3 step 1 — one of
`Public`/`Protected`/`Private`, marking constructor-property
promotion. -/
inductive PropertyFlag where
  | Public
  | Protected
  | Private
  deriving Repr, DecidableEq

/-- The `Param` shape of the `params.rs` stage (spec §3): name, optional
type descriptor, variadic / by-reference markers, optional default
value, optional promotion flag. -/
structure Param where
  name : Expression
  paramType : Option String
  variadic : Bool
  by_ref : Bool
  default : Option Expression
  flag : Option PropertyFlag
  deriving Repr

/-- Modelled from the spec: `Parser::type_string` is not under `src/`.
§4.3 step 2 — the type annotation "parses a type-descriptor token
sequence"; modelled minimally as one `Identifier` token naming the
type, anything else failing with `ExpectedToken`. -/
def type_string : List Token → POutcome String
  | Token.Identifier i :: rest => POutcome.ok i rest
  | _ :: rest => POutcome.error (ParseError.ExpectedToken "expected type") rest
  | [] => POutcome.error (ParseError.ExpectedToken "expected type") []

/-- Modelled from the spec: `Parser::optional_comma` is not under
`src/`.  §4.3 step 6 — consume one trailing comma if present. -/
def optional_comma : List Token → List Token
  | Token.Comma :: rest => rest
  | ts => ts

/-- From `params.rs` lines 16–25: the optional promotion flag —
`matches!(current, Public | Protected | Private)` consumes the token and
converts it. -/
def flagOf : List Token → Option PropertyFlag × List Token
  | Token.Public :: rest => (some PropertyFlag.Public, rest)
  | Token.Protected :: rest => (some PropertyFlag.Protected, rest)
  | Token.Private :: rest => (some PropertyFlag.Private, rest)
  | ts => (none, ts)

/-- From `params.rs` lines 28–31: a type string is attempted whenever the
current token is not one of `Variable` / `Ellipsis` / `Ampersand`, or
whenever `config.force_type_strings` is set. -/
def needsType (forceTypeStrings : Bool) : List Token → Bool
  | Token.Variable _ :: _ => forceTypeStrings
  | Token.Ellipsis :: _ => forceTypeStrings
  | Token.Ampersand :: _ => forceTypeStrings
  | _ => true

/-- From `params.rs` lines 40–50: at most one `...` (variadic) or `&`
(by-reference) marker token is consumed; the result is the pair
`(variadic, by_ref)` and the remaining stream. -/
def markerOf : List Token → (Bool × Bool) × List Token
  | Token.Ellipsis :: rest => ((true, false), rest)
  | Token.Ampersand :: rest => ((false, true), rest)
  | ts => ((false, false), ts)

/-- From `params.rs` lines 14 and 27–35: the optional type annotation —
attempted exactly when `needsType` holds, producing `some` type string. -/
def typeStep (forceTypeStrings : Bool) (ts : List Token) : POutcome (Option String) :=
  if needsType forceTypeStrings ts then
    (type_string ts).bind fun ty r => POutcome.ok (some ty) r
  else POutcome.ok none ts

/-- From `params.rs` lines 55–59: the optional `= <expression>` default
value, parsed (spec §4.3 step 5) by the Expression Parser at minimum
binding power 0. -/
def defaultValue (fuel : Nat) (ts : List Token) : POutcome (Option Expression) :=
  match ts with
  | Token.Equals :: r =>
    (expression fuel r 0).bind fun d r' => POutcome.ok (some d) r'
  | _ => POutcome.ok none ts

/-- The method `Parser::param_list` (`params.rs` lines 10–75): while the current
token exists and is not `)` — per parameter: optional promotion flag,
optional type string, at most one variadic/by-reference marker, a
mandatory `Variable` (else `ExpectedToken`), an optional `= expression`
default, then an optional comma.  The `)` is left for the caller. -/
def param_list (fuel : Nat) (forceTypeStrings : Bool) (ts : List Token) :
    POutcome (List Param) :=
  match fuel with
  | 0 => POutcome.outOfFuel
  | fuel + 1 =>
    match ts with
    | [] => POutcome.ok [] []
    | t :: _ =>
      if t = Token.RightParen then POutcome.ok [] ts
      else
        let (flag, ts1) := flagOf ts
        (typeStep forceTypeStrings ts1).bind fun paramType ts2 =>
        let ((variadic, by_ref), ts3) := markerOf ts2
        match ts3 with
        | Token.Variable v :: ts4 =>
          (defaultValue fuel ts4).bind fun defaultVal ts5 =>
          (param_list fuel forceTypeStrings (optional_comma ts5)).bind fun ps r =>
            POutcome.ok
              ({ name := Expression.Variable v, paramType := paramType,
                 variadic := variadic, by_ref := by_ref,
                 default := defaultVal, flag := flag } :: ps) r
        | _ :: ts4 => POutcome.error (ParseError.ExpectedToken "expected variable") ts4
        | [] => POutcome.error (ParseError.ExpectedToken "expected variable") []

end ParamsRs

/-! Claim theorems for the frozen claim list. -/

/-- Claim C1.  In the expression parser, `+` and `-` are infix operators
with binding powers `(11, 12)` and `<` has binding powers `(9, 10)`,
making `+`/`-` left-associative at one tier and strictly tighter than
`<`, while the call postfix `(` at binding power `19` binds strictly
tighter than both; consequently every token stream of the shape
`$v - a + $v - b ;` parses at minimum binding power `0` to
`Infix(Infix(Infix(Variable v, Sub, Int a), Add, Variable v), Sub, Int b)`,
`$v < a + b ;` groups the addition under the comparison, and a call
argument list groups before the arithmetic. -/
theorem c1_binding_powers_and_left_assoc :
    infix_binding_power Token.Plus = some (11, 12) ∧
    infix_binding_power Token.Minus = some (11, 12) ∧
    infix_binding_power Token.LessThan = some (9, 10) ∧
    postfix_binding_power Token.LeftParen = some 19 ∧
    (∀ (v : String) (a b : Int) (rest : List Token),
      expression 20
        (Token.Variable v :: Token.Minus :: Token.Int a :: Token.Plus ::
          Token.Variable v :: Token.Minus :: Token.Int b :: Token.SemiColon :: rest) 0 =
      POutcome.ok
        (Expression.Infix
          (Expression.Infix
            (Expression.Infix (Expression.Variable v) InfixOp.Sub (Expression.Int a))
            InfixOp.Add (Expression.Variable v))
          InfixOp.Sub (Expression.Int b))
        (Token.SemiColon :: rest)) ∧
    (∀ (v : String) (a b : Int) (rest : List Token),
      expression 20
        (Token.Variable v :: Token.LessThan :: Token.Int a :: Token.Plus ::
          Token.Int b :: Token.SemiColon :: rest) 0 =
      POutcome.ok
        (Expression.Infix (Expression.Variable v) InfixOp.LessThan
          (Expression.Infix (Expression.Int a) InfixOp.Add (Expression.Int b)))
        (Token.SemiColon :: rest)) ∧
    (∀ (f : String) (x : String) (c : Int) (rest : List Token),
      expression 20
        (Token.Identifier f :: Token.LeftParen :: Token.Variable x :: Token.RightParen ::
          Token.Plus :: Token.Int c :: Token.SemiColon :: rest) 0 =
      POutcome.ok
        (Expression.Infix
          (Expression.Call (Expression.Identifier f) [Expression.Variable x])
          InfixOp.Add (Expression.Int c))
        (Token.SemiColon :: rest)) :=
  ⟨rfl, rfl, rfl, rfl, fun _ _ _ _ => rfl, fun _ _ _ _ => rfl, fun _ _ _ _ => rfl⟩

/-- Claim C6.  An expression parse invoked with no remaining tokens fails
with `UnexpectedEndOfFile`, and a block parse that reaches end-of-input
before its closing terminator fails with `ExpectedToken` naming the
missing delimiter: a function body and an if body missing the closing
`}` both yield `ExpectedToken "expected \x7d"`. -/
theorem c6_end_of_input :
    (∀ (fuel bp : Nat), expression (fuel + 1) [] bp =
      POutcome.error ParseError.UnexpectedEndOfFile []) ∧
    (∀ name : String,
      statement 3 Token.Function
        [Token.Identifier name, Token.LeftParen, Token.RightParen, Token.LeftBrace] =
      POutcome.error (ParseError.ExpectedToken "expected \x7d") []) ∧
    (∀ v : String,
      statement 3 Token.If
        [Token.LeftParen, Token.Variable v, Token.RightParen, Token.LeftBrace] =
      POutcome.error (ParseError.ExpectedToken "expected \x7d") []) :=
  ⟨fun _ _ => rfl, fun _ => rfl, fun _ => rfl⟩

/-- An integer literal followed by a comma: the climbing loop stops at
the comma (no binding power), leaving it unconsumed. -/
theorem expression_int_before_comma (g : Nat) (i : Int) (tail : List Token) :
    expression (g + 2) (Token.Int i :: Token.Comma :: tail) 0 =
      POutcome.ok (Expression.Int i) (Token.Comma :: tail) := rfl

/-- The echo-value loop on a comma-separated list of integer literals
(every one followed by a comma, the last comma trailing) consumes the
terminating semicolon and returns the literals in source order. -/
theorem echoValues_int_list (es : List Int) : ∀ fuel : Nat, es.length + 2 ≤ fuel →
    echoValues fuel ((es.flatMap fun i => [Token.Int i, Token.Comma]) ++ [Token.SemiColon]) =
      POutcome.ok (es.map Expression.Int) [] := by
  induction es with
  | nil =>
    intro fuel h
    obtain ⟨g, rfl⟩ : ∃ g, fuel = g + 1 := ⟨fuel - 1, by omega⟩
    simp [echoValues]
  | cons i es ih =>
    intro fuel h
    obtain ⟨g, rfl⟩ : ∃ g, fuel = (g + 2) + 1 := ⟨fuel - 3, by simp at h; omega⟩
    simp only [List.flatMap_cons, List.cons_append, List.append_assoc]
    rw [echoValues]
    simp only [reduceCtorEq, if_false]
    simp only [List.nil_append]
    rw [expression_int_before_comma]
    simp only [POutcome.bind_ok]
    rw [ih (g + 2) (by simp at h ⊢; omega)]
    simp

/-- Claim C5, counterexample.  The claim says every `Echo` statement
produced by the parser carries a non-empty sequence of expressions; but
the input `echo ;` parses successfully to `Echo` with an empty value
list. -/
theorem c5_counterexample :
    parse 3 [Token.Echo, Token.SemiColon] = POutcome.ok [Statement.Echo []] [] := rfl

/-- Claim C5, amended.  Every `Echo` statement produced by the parser
carries the comma-separated value expressions in source order, but the
sequence may be empty: when the token after `echo` is already `;` the
parser produces `Echo{values: []}` (non-emptiness is not enforced). -/
theorem c5_echo_values_source_order :
    (∀ (fuel : Nat) (ts : List Token) (vs : List Expression) (rest : List Token),
      echoValues fuel ts = POutcome.ok vs rest →
      statement (fuel + 1) Token.Echo ts = POutcome.ok (Statement.Echo vs) rest) ∧
    (∀ (es : List Int) (fuel : Nat), es.length + 2 ≤ fuel →
      echoValues fuel ((es.flatMap fun i => [Token.Int i, Token.Comma]) ++ [Token.SemiColon]) =
        POutcome.ok (es.map Expression.Int) []) ∧
    (∀ (fuel : Nat) (ts : List Token),
      statement (fuel + 2) Token.Echo (Token.SemiColon :: ts) =
        POutcome.ok (Statement.Echo []) ts) := by
  refine ⟨fun fuel ts vs rest h => ?_, echoValues_int_list, fun _ _ => rfl⟩
  rw [statement, h]
  rfl

/-- Claim C5 witness: `echo 1, 2,;` parses to `Echo [Int 1, Int 2]`, by
the amended theorem applied at a concrete input. -/
theorem c5_echo_values_source_order_witness :
    statement 8 Token.Echo
      [Token.Int 1, Token.Comma, Token.Int 2, Token.Comma, Token.SemiColon] =
    POutcome.ok (Statement.Echo [Expression.Int 1, Expression.Int 2]) [] := by
  have h2 := c5_echo_values_source_order.2.1 [1, 2] 7 (by norm_num)
  have h1 := c5_echo_values_source_order.1 7 _ _ _ h2
  simpa using h1

/-- The function-parameter loop on a comma-separated list of bare
`$variable` tokens (each followed by a comma): produces the `Param`s in
source order and leaves the `)` unconsumed. -/
theorem fnParams_vars (names : List String) : ∀ fuel : Nat, names.length < fuel →
    ∀ rest : List Token,
    fnParams fuel ((names.flatMap fun v => [Token.Variable v, Token.Comma]) ++
        Token.RightParen :: rest) =
      POutcome.ok (names.map Param.fromName) (Token.RightParen :: rest) := by
  induction names with
  | nil =>
    intro fuel h rest
    obtain ⟨g, rfl⟩ : ∃ g, fuel = g + 1 := ⟨fuel - 1, by omega⟩
    simp [fnParams]
  | cons v names ih =>
    intro fuel h rest
    obtain ⟨g, rfl⟩ : ∃ g, fuel = g + 1 := ⟨fuel - 1, by omega⟩
    simp only [List.flatMap_cons, List.cons_append, List.nil_append]
    rw [fnParams]
    simp only [reduceCtorEq, if_false]
    rw [ih g (by simp at h ⊢; omega) rest]
    simp

/-- Claim C7, counterexample.  The claim says `function` declarations
delegate their parameter list to the §4.3 parameter-list parser
(`params.rs`), with support for variadic markers etc.; but on the
parameter tokens `... $n` the §4.3 parser succeeds with a variadic
parameter while the function-declaration parser of `parser.rs` fails
with `ExpectedToken "expected variable"`. -/
theorem c7_counterexample :
    ParamsRs.param_list 5 false [Token.Ellipsis, Token.Variable "n", Token.RightParen] =
      POutcome.ok
        [{ name := Expression.Variable "n", paramType := none, variadic := true,
           by_ref := false, default := none, flag := none }]
        [Token.RightParen] ∧
    statement 3 Token.Function
      [Token.Identifier "foo", Token.LeftParen, Token.Ellipsis, Token.Variable "n",
        Token.RightParen, Token.LeftBrace, Token.RightBrace] =
      POutcome.error (ParseError.ExpectedToken "expected variable")
        [Token.Variable "n", Token.RightParen, Token.LeftBrace, Token.RightBrace] :=
  ⟨rfl, rfl⟩

/-- Claim C7, amended.  The `function` declaration parser of `parser.rs`
does not delegate to the §4.3 parameter-list parser: it parses the
parameters directly as bare `$variable` tokens separated by optional
commas, producing the ordered `Param{name}` sequence in source order,
and any other token where a parameter is expected (type annotation,
`...`, `&`, visibility flag, default) fails with
`ExpectedToken "expected variable"`. -/
theorem c7_function_params_bare_variables :
    (∀ (fuel : Nat) (name : String) (names : List String) (rest : List Token),
      names.length < fuel →
      statement (fuel + 1) Token.Function
        (Token.Identifier name :: Token.LeftParen ::
          ((names.flatMap fun v => [Token.Variable v, Token.Comma]) ++
            Token.RightParen :: Token.LeftBrace :: Token.RightBrace :: rest)) =
      POutcome.ok (Statement.Function ⟨name⟩ (names.map Param.fromName) []) rest) ∧
    (∀ (fuel : Nat) (t : Token) (ts : List Token),
      t ≠ Token.RightParen → (∀ v, t ≠ Token.Variable v) →
      fnParams (fuel + 1) (t :: ts) =
        POutcome.error (ParseError.ExpectedToken "expected variable") ts) := by
  constructor
  · intro fuel name names rest h
    obtain ⟨g, rfl⟩ : ∃ g, fuel = g + 1 := ⟨fuel - 1, by omega⟩
    rw [statement]
    simp only [expectIdentifier, expectTok, POutcome.bind_ok, reduceIte]
    rw [fnParams_vars names (g + 1) (by simpa using h)
      (Token.LeftBrace :: Token.RightBrace :: rest)]
    simp [blockLoop, expectTok]
  · intro fuel t ts h1 h2
    cases t <;> simp_all [fnParams]

/-- Claim C7 witness: `function foo($n,) {}` parses to a `Function` with
one bare parameter, and the parameter loop rejects `...` where a
variable is expected — both via the amended theorem at concrete
inputs. -/
theorem c7_function_params_bare_variables_witness :
    statement 3 Token.Function
      [Token.Identifier "foo", Token.LeftParen, Token.Variable "n", Token.Comma,
        Token.RightParen, Token.LeftBrace, Token.RightBrace] =
      POutcome.ok (Statement.Function ⟨"foo"⟩ [Param.fromName "n"] []) [] ∧
    fnParams 1 [Token.Ellipsis] =
      POutcome.error (ParseError.ExpectedToken "expected variable") [] := by
  constructor
  · have h := c7_function_params_bare_variables.1 2 "foo" ["n"] [] (by norm_num)
    simpa using h
  · exact c7_function_params_bare_variables.2 0 Token.Ellipsis [] (by simp) (by simp)

/-- The token kinds with a dispatch arm in `Parser::statement` before
the final `todo!("unhandled token")` arm (spec §4.1's dispatch list). -/
def isDispatched (t : Token) : Bool :=
  match t with
  | Token.InlineHtml _ => true
  | Token.If => true
  | Token.Class => true
  | Token.Echo => true
  | Token.Return => true
  | Token.Function => true
  | _ => is_method_visibility_modifier t

/-- The token kinds accepted as a primary expression by
`Parser::expression` (spec §4.2 step 2); anything else hits
`todo!("lhs")`. -/
def isPrimaryStart (t : Token) : Bool :=
  match t with
  | Token.Variable _ => true
  | Token.Int _ => true
  | Token.Identifier _ => true
  | _ => false

/-- Claim C8, counterexample.  The claim says a statement beginning with a
token kind outside the dispatched set is reported through the returned
result as one of the three `ParseError` kinds, never a crash; but the
`todo!` arms of `Parser::statement` and `Parser::expression` panic: on
the single token `,` the statement parser (and the whole parse) crashes
rather than returning an error, and likewise an expression starting
with `+`. -/
theorem c8_counterexample :
    statement 1 Token.Comma [] = POutcome.panicked ∧
    parse 2 [Token.Comma] = POutcome.panicked ∧
    expression 1 [Token.Plus] 0 = POutcome.panicked :=
  ⟨rfl, rfl, rfl⟩

/-- Claim C8, amended.  Every failure the parser reports is a value of
the three-kind `ParseError` result, but a statement beginning with a
token kind outside the dispatched set — and an expression beginning
with a token that is not a primary — is an `todo!` panic (a crash),
not a returned result. -/
theorem c8_unhandled_tokens_panic :
    (∀ (fuel : Nat) (t : Token) (ts : List Token),
      isDispatched t = false → statement (fuel + 1) t ts = POutcome.panicked) ∧
    (∀ (fuel : Nat) (t : Token) (ts : List Token) (bp : Nat),
      isPrimaryStart t = false →
      expression (fuel + 1) (t :: ts) bp = POutcome.panicked) := by
  constructor
  · intro fuel t ts h
    cases t <;> simp_all [isDispatched, is_method_visibility_modifier, statement]
  · intro fuel t ts bp h
    cases t <;> simp_all [isPrimaryStart, expression]

/-- Claim C8 witness: the unhandled leading tokens `,` (statement) and
`+` (expression) crash, via the amended theorem at concrete inputs. -/
theorem c8_unhandled_tokens_panic_witness :
    statement 5 Token.Comma [] = POutcome.panicked ∧
    expression 5 [Token.Plus] 0 = POutcome.panicked :=
  ⟨c8_unhandled_tokens_panic.1 4 Token.Comma [] rfl,
   c8_unhandled_tokens_panic.2 4 Token.Plus [] 0 rfl⟩

/-- Whether a token is an `OpenTag` (the kinds skipped by the top-level
loop of `Parser::parse`). -/
def Token.isOpenTag : Token → Bool
  | Token.OpenTag _ => true
  | _ => false

/-- Claim C10.  At the top level, `Parser::parse` skips every `OpenTag`
token without producing a statement; every non-`OpenTag` token starts
exactly one statement (the parse of which consumes the construct and
contributes exactly one `Statement` to the `Program`); and an input of
only `OpenTag` tokens — or no tokens — parses successfully to the empty
`Program`. -/
theorem c10_parse_skips_open_tags :
    (∀ (fuel : Nat) (s : String) (ts : List Token),
      parse (fuel + 1) (Token.OpenTag s :: ts) = parse fuel ts) ∧
    (∀ (fuel : Nat) (t : Token) (ts : List Token),
      Token.isOpenTag t = false →
      parse (fuel + 1) (t :: ts) =
        (statement fuel t ts).bind fun st r =>
        (parse fuel r).bind fun prog r' => POutcome.ok (st :: prog) r') ∧
    (∀ (l : List Token) (fuel : Nat),
      (∀ t ∈ l, Token.isOpenTag t = true) → l.length < fuel →
      parse fuel l = POutcome.ok [] []) ∧
    (∀ fuel : Nat, parse (fuel + 1) [] = POutcome.ok [] []) := by
  refine ⟨fun _ _ _ => rfl, ?_, ?_, fun _ => rfl⟩
  · intro fuel t ts h
    cases t <;> simp_all [Token.isOpenTag, parse]
  · intro l
    induction l with
    | nil =>
      intro fuel _ hf
      obtain ⟨g, rfl⟩ : ∃ g, fuel = g + 1 := ⟨fuel - 1, by omega⟩
      rfl
    | cons t l ih =>
      intro fuel hall hf
      obtain ⟨g, rfl⟩ : ∃ g, fuel = g + 1 := ⟨fuel - 1, by omega⟩
      have ht := hall t (by simp)
      cases t <;> simp [Token.isOpenTag] at ht
      rename_i str
      have hskip : parse (g + 1) (Token.OpenTag str :: l) = parse g l := rfl
      rw [hskip]
      exact ih g (fun x hx => hall x (by simp [hx])) (by simp at hf; omega)

/-- Claim C10 witness: an input of two `OpenTag` tokens parses to the
empty program, and `echo ;` contributes exactly one statement — via the
claim theorem at concrete inputs. -/
theorem c10_parse_skips_open_tags_witness :
    parse 3 [Token.OpenTag "a", Token.OpenTag "b"] = POutcome.ok [] [] ∧
    parse 3 [Token.Echo, Token.SemiColon] = POutcome.ok [Statement.Echo []] [] := by
  constructor
  · exact c10_parse_skips_open_tags.2.2.1 [Token.OpenTag "a", Token.OpenTag "b"] 3
      (by simp [Token.isOpenTag]) (by norm_num)
  · rw [c10_parse_skips_open_tags.2.1 2 Token.Echo [Token.SemiColon] rfl]
    rfl

/-- Claim C2.  When parsing a `return` statement whose next token is not
`;`, a failure of the value-expression parse is silently treated as "no
value": the parser moves on to the `expect!` of the terminating
semicolon with `value: None` instead of propagating the expression
parser's error; when the immediate next token is `;`, it produces
`Return{value: None}` and consumes that semicolon. -/
theorem c2_return_swallows_expression_error :
    (∀ (fuel : Nat) (ts : List Token) (e : ParseError) (rest : List Token),
      ts.head? ≠ some Token.SemiColon →
      expression fuel ts 0 = POutcome.error e rest →
      statement (fuel + 1) Token.Return ts =
        (expectTok Token.SemiColon
            "expected semi-colon at the end of return statement." rest).bind
          (fun _ r => POutcome.ok (Statement.Return none) r)) ∧
    (∀ (fuel : Nat) (ts : List Token),
      statement (fuel + 1) Token.Return (Token.SemiColon :: ts) =
        POutcome.ok (Statement.Return none) ts) := by
  constructor
  · intro fuel ts e rest hhead hexp
    cases ts with
    | nil => simp [statement, hexp]
    | cons t ts' => cases t <;> simp_all [statement]
  · intro fuel ts
    rfl

/-- Claim C2 witness: `return` at end-of-input — the expression parse
fails with `UnexpectedEndOfFile` but the reported error is the
semicolon `ExpectedToken`, not the expression error; and `return ;`
yields `Return{value: None}`. -/
theorem c2_return_swallows_expression_error_witness :
    statement 2 Token.Return [] =
      POutcome.error
        (ParseError.ExpectedToken "expected semi-colon at the end of return statement.") [] ∧
    statement 1 Token.Return [Token.SemiColon] =
      POutcome.ok (Statement.Return none) [] := by
  constructor
  · have h := c2_return_swallows_expression_error.1 1 []
      ParseError.UnexpectedEndOfFile [] (by simp) rfl
    simpa [expectTok] using h
  · exact c2_return_swallows_expression_error.2 0 []

/-- Claim C3.  In a class body, an inner statement that resolves to
`Function` is re-tagged as `Method` with an empty flag list, one that is
already a `Method` is kept unchanged, and any other resolved statement
kind fails the parse with `InvalidClassStatement`; an empty class body
yields `Class` with an empty body list. -/
theorem c3_class_body_retag :
    (∀ (fuel : Nat) (t : Token) (ts : List Token) (n : Identifier) (p : List Param)
        (b : List Statement) (rest : List Token),
      t ≠ Token.RightBrace →
      statement fuel t ts = POutcome.ok (Statement.Function n p b) rest →
      classBody (fuel + 1) (t :: ts) =
        (classBody fuel rest).bind fun sts r =>
          POutcome.ok (Statement.Method n p b [] :: sts) r) ∧
    (∀ (fuel : Nat) (t : Token) (ts : List Token) (n : Identifier) (p : List Param)
        (b : List Statement) (fl : List MethodFlag) (rest : List Token),
      t ≠ Token.RightBrace →
      statement fuel t ts = POutcome.ok (Statement.Method n p b fl) rest →
      classBody (fuel + 1) (t :: ts) =
        (classBody fuel rest).bind fun sts r =>
          POutcome.ok (Statement.Method n p b fl :: sts) r) ∧
    (∀ (fuel : Nat) (t : Token) (ts : List Token) (s : Statement) (rest : List Token),
      t ≠ Token.RightBrace →
      statement fuel t ts = POutcome.ok s rest →
      (∀ n p b, s ≠ Statement.Function n p b) →
      (∀ n p b fl, s ≠ Statement.Method n p b fl) →
      classBody (fuel + 1) (t :: ts) =
        POutcome.error
          (ParseError.InvalidClassStatement
            "Classes can only contain properties, constants and methods.") rest) ∧
    (∀ (name : String) (rest : List Token),
      statement 3 Token.Class
        (Token.Identifier name :: Token.LeftBrace :: Token.RightBrace :: rest) =
        POutcome.ok (Statement.Class ⟨name⟩ []) rest) := by
  refine ⟨?_, ?_, ?_, fun _ _ => rfl⟩
  · intro fuel t ts n p b rest ht hst
    simp [classBody, ht, hst]
  · intro fuel t ts n p b fl rest ht hst
    simp [classBody, ht, hst]
  · intro fuel t ts s rest ht hst h3 h4
    cases s
    case Function n p b => exact absurd rfl (h3 n p b)
    case Method n p b fl => exact absurd rfl (h4 n p b fl)
    all_goals simp [classBody, ht, hst]

/-- Claim C3 witness: inside a class body, `function f(){}` is promoted
to a `Method` with empty flags, `echo ;` fails with
`InvalidClassStatement`, and `class Foo {}` yields an empty body — via
the claim theorem at concrete inputs. -/
theorem c3_class_body_retag_witness :
    classBody 4 (Token.Function :: [Token.Identifier "f", Token.LeftParen,
      Token.RightParen, Token.LeftBrace, Token.RightBrace, Token.RightBrace]) =
      POutcome.ok [Statement.Method ⟨"f"⟩ [] [] []] [Token.RightBrace] ∧
    classBody 3 (Token.Echo :: [Token.SemiColon, Token.RightBrace]) =
      POutcome.error (ParseError.InvalidClassStatement
        "Classes can only contain properties, constants and methods.") [Token.RightBrace] ∧
    statement 3 Token.Class [Token.Identifier "Foo", Token.LeftBrace, Token.RightBrace] =
      POutcome.ok (Statement.Class ⟨"Foo"⟩ []) [] := by
  refine ⟨?_, ?_, c3_class_body_retag.2.2.2 "Foo" []⟩
  · rw [c3_class_body_retag.1 3 Token.Function
      [Token.Identifier "f", Token.LeftParen, Token.RightParen, Token.LeftBrace,
        Token.RightBrace, Token.RightBrace] ⟨"f"⟩ [] [] [Token.RightBrace]
      (by simp) rfl]
    rfl
  · exact c3_class_body_retag.2.2.1 2 Token.Echo [Token.SemiColon, Token.RightBrace]
      (Statement.Echo []) [Token.RightBrace] (by simp) rfl (by simp) (by simp)

/-- The flag-collection loop on a run of modifier tokens followed by a
non-modifier: appends the corresponding flags in encounter order. -/
theorem modFlags_spec (ms : List Token) : ∀ (fuel : Nat) (acc : List MethodFlag)
    (t : Token) (ts : List Token),
    (∀ x ∈ ms, is_method_visibility_modifier x = true) →
    is_method_visibility_modifier t = false →
    ms.length < fuel →
    modFlags fuel acc (ms ++ t :: ts) =
      POutcome.ok (acc ++ ms.map visibility_token_to_flag) (t :: ts) := by
  induction ms with
  | nil =>
    intro fuel acc t ts _ ht hf
    obtain ⟨g, rfl⟩ : ∃ g, fuel = g + 1 := ⟨fuel - 1, by omega⟩
    simp [modFlags, ht]
  | cons m ms ih =>
    intro fuel acc t ts hall ht hf
    obtain ⟨g, rfl⟩ : ∃ g, fuel = g + 1 := ⟨fuel - 1, by omega⟩
    have hm := hall m (by simp)
    rw [List.cons_append, modFlags]
    simp only [hm, if_true]
    rw [ih g (acc ++ [visibility_token_to_flag m]) t ts
      (fun x hx => hall x (by simp [hx])) ht (by simp at hf; omega)]
    simp

/-- Claim C4.  A run of one or more visibility/static modifier tokens
followed by a statement that resolves to `Function` produces a `Method`
whose flag list is exactly the corresponding `MethodFlag`s in encounter
order (in particular `private static function f(){}` yields
`[Private, Static]`); a following statement resolving to anything other
than `Function` fails with `InvalidClassStatement`. -/
theorem c4_modifier_flags_in_order :
    (∀ (fuel : Nat) (m : Token) (ms : List Token) (t : Token) (ts : List Token)
        (n : Identifier) (p : List Param) (b : List Statement) (rest : List Token),
      is_method_visibility_modifier m = true →
      (∀ x ∈ ms, is_method_visibility_modifier x = true) →
      is_method_visibility_modifier t = false →
      ms.length < fuel →
      statement fuel t ts = POutcome.ok (Statement.Function n p b) rest →
      statement (fuel + 1) m (ms ++ t :: ts) =
        POutcome.ok
          (Statement.Method n p b ((m :: ms).map visibility_token_to_flag)) rest) ∧
    (∀ (fuel : Nat) (m : Token) (ms : List Token) (t : Token) (ts : List Token)
        (s : Statement) (rest : List Token),
      is_method_visibility_modifier m = true →
      (∀ x ∈ ms, is_method_visibility_modifier x = true) →
      is_method_visibility_modifier t = false →
      ms.length < fuel →
      statement fuel t ts = POutcome.ok s rest →
      (∀ n p b, s ≠ Statement.Function n p b) →
      statement (fuel + 1) m (ms ++ t :: ts) =
        POutcome.error
          (ParseError.InvalidClassStatement
            "Classes can only contain properties, constants and methods.") rest) ∧
    (∀ rest : List Token,
      statement 9 Token.Private (Token.Static :: Token.Function :: Token.Identifier "f" ::
        Token.LeftParen :: Token.RightParen :: Token.LeftBrace :: Token.RightBrace :: rest) =
        POutcome.ok
          (Statement.Method ⟨"f"⟩ [] [] [MethodFlag.Private, MethodFlag.Static]) rest) := by
  refine ⟨?_, ?_, fun _ => rfl⟩
  · intro fuel m ms t ts n p b rest hm hms ht hf hst
    cases m <;> simp [is_method_visibility_modifier] at hm
    all_goals (
      simp only [statement, is_method_visibility_modifier, reduceIte]
      rw [modFlags_spec ms fuel _ t ts hms ht hf]
      simp [hst])
  · intro fuel m ms t ts s rest hm hms ht hf hst hnf
    cases s
    case Function n p b => exact absurd rfl (hnf n p b)
    all_goals (
      cases m <;> simp [is_method_visibility_modifier] at hm
      all_goals (
        simp only [statement, is_method_visibility_modifier, reduceIte]
        rw [modFlags_spec ms fuel _ t ts hms ht hf]
        simp [hst]))

/-- Claim C4 witness: `public function g(){}` yields `Method` with flags
`[Public]`; `public echo ;` fails with `InvalidClassStatement` — via the
claim theorem at concrete inputs. -/
theorem c4_modifier_flags_in_order_witness :
    statement 4 Token.Public [Token.Function, Token.Identifier "g", Token.LeftParen,
      Token.RightParen, Token.LeftBrace, Token.RightBrace] =
      POutcome.ok (Statement.Method ⟨"g"⟩ [] [] [MethodFlag.Public]) [] ∧
    statement 3 Token.Public [Token.Echo, Token.SemiColon] =
      POutcome.error
        (ParseError.InvalidClassStatement
          "Classes can only contain properties, constants and methods.") [] := by
  constructor
  · have h := c4_modifier_flags_in_order.1 3 Token.Public [] Token.Function
      [Token.Identifier "g", Token.LeftParen, Token.RightParen, Token.LeftBrace,
        Token.RightBrace] ⟨"g"⟩ [] [] [] rfl (by simp) rfl (by norm_num) rfl
    simpa [visibility_token_to_flag] using h
  · have h := c4_modifier_flags_in_order.2.1 2 Token.Public [] Token.Echo
      [Token.SemiColon] (Statement.Echo []) [] rfl (by simp) rfl (by norm_num) rfl
      (by simp)
    simpa using h

/-- The marker step of `param_list` sets at most one of the two flags:
the pair it returns is never `(true, true)`. -/
theorem markerOf_not_both (ts : List Token) :
    (ParamsRs.markerOf ts).1.1 = false ∨ (ParamsRs.markerOf ts).1.2 = false := by
  cases ts with
  | nil => simp [ParamsRs.markerOf]
  | cons t rest => cases t <;> simp [ParamsRs.markerOf]

/-- Claim C9.  For every `Param` produced by the parameter-list parser,
the `variadic` and `by_ref` flags are never both true: at most one
marker token (`...` or `&`) is consumed before the parameter variable,
setting at most one of the two flags. -/
theorem c9_variadic_byref_exclusive :
    ∀ (fuel : Nat) (cfg : Bool) (ts : List Token) (ps : List ParamsRs.Param)
      (rest : List Token),
      ParamsRs.param_list fuel cfg ts = POutcome.ok ps rest →
      ∀ p ∈ ps, p.variadic = false ∨ p.by_ref = false := by
  intro fuel
  induction fuel with
  | zero =>
    intro cfg ts ps rest h
    simp [ParamsRs.param_list] at h
  | succ fuel ih =>
    intro cfg ts ps rest h
    cases ts with
    | nil =>
      simp [ParamsRs.param_list] at h
      obtain ⟨rfl, rfl⟩ := h
      simp
    | cons t ts' =>
      rw [ParamsRs.param_list] at h
      by_cases hrp : t = Token.RightParen
      · rw [if_pos hrp] at h
        simp at h
        obtain ⟨rfl, rfl⟩ := h
        simp
      · rw [if_neg hrp] at h
        obtain ⟨flag, ts1, hfl⟩ :
            ∃ flag ts1, ParamsRs.flagOf (t :: ts') = (flag, ts1) := ⟨_, _, rfl⟩
        rw [hfl] at h
        dsimp only at h
        cases hty : ParamsRs.typeStep cfg ts1 with
        | ok ty ts2 =>
          rw [hty] at h
          simp only [POutcome.bind_ok] at h
          obtain ⟨vd, br, ts3, hmk⟩ :
              ∃ vd br ts3, ParamsRs.markerOf ts2 = ((vd, br), ts3) := ⟨_, _, _, rfl⟩
          rw [hmk] at h
          dsimp only at h
          have hvb : vd = false ∨ br = false := by
            have := markerOf_not_both ts2
            rw [hmk] at this
            simpa using this
          cases ts3 with
          | nil => simp at h
          | cons t3 ts4 =>
            cases t3 <;> simp only at h <;> try (simp at h)
            rename_i v
            cases hdv : ParamsRs.defaultValue fuel ts4 with
            | ok dv ts5 =>
              rw [hdv] at h
              simp only [POutcome.bind_ok] at h
              cases hrec : ParamsRs.param_list fuel cfg (ParamsRs.optional_comma ts5) with
              | ok ps' r =>
                rw [hrec] at h
                simp only [POutcome.bind_ok, POutcome.ok.injEq] at h
                obtain ⟨hps, hr⟩ := h
                subst hps
                subst hr
                intro p hp
                rcases List.mem_cons.mp hp with rfl | hp'
                · simpa using hvb
                · exact ih cfg (ParamsRs.optional_comma ts5) ps' r hrec p hp'
              | error e r => rw [hrec] at h; simp at h
              | panicked => rw [hrec] at h; simp at h
              | outOfFuel => rw [hrec] at h; simp at h
            | error e r => rw [hdv] at h; simp at h
            | panicked => rw [hdv] at h; simp at h
            | outOfFuel => rw [hdv] at h; simp at h
        | error e r => rw [hty] at h; simp at h
        | panicked => rw [hty] at h; simp at h
        | outOfFuel => rw [hty] at h; simp at h

/-- Claim C9 witness: `... $n` (then `)`) produces one variadic,
non-by-reference parameter, and the claim theorem applies to it. -/
theorem c9_variadic_byref_exclusive_witness :
    ParamsRs.param_list 5 false [Token.Ellipsis, Token.Variable "n", Token.RightParen] =
      POutcome.ok
        [{ name := Expression.Variable "n", paramType := none, variadic := true,
           by_ref := false, default := none, flag := none }]
        [Token.RightParen] ∧
    (∀ p ∈ [({ name := Expression.Variable "n", paramType := none, variadic := true,
               by_ref := false, default := none, flag := none } : ParamsRs.Param)],
      p.variadic = false ∨ p.by_ref = false) :=
  ⟨rfl, c9_variadic_byref_exclusive 5 false
    [Token.Ellipsis, Token.Variable "n", Token.RightParen] _ [Token.RightParen] rfl⟩
